import Mathlib

/-!
Shallow embedding of the arhida C++ arXiv OAI-PMH harvester
(OaiClient.cpp, Harvester.cpp, Database.cpp, RateLimiter.cpp,
JsonHelper.cpp), together with theorems checking the natural-language
specification against this code.

Modelling conventions:
* `std::vector<T>` is `List T`, `std::string` is `String`.
* libxml2 documents are modelled by the tree type `Xml`; `xmlReadMemory`
  returning `NULL` (unparseable payload) or `xmlDocGetRootElement`
  returning `NULL` are both modelled by the `Option` being `none`.
  `xmlNodeGetContent` of an element is modelled by the `content` field.
* The HTTP layer (`fetchUrl`) is modelled by an oracle
  `fetch : Nat → Option Body`: `fetch i = none` means attempt number `i`
  threw (`CURLcode ≠ CURLE_OK`, or HTTP status ≥ 400), `some b` means a
  2xx/3xx response whose body text is `b.text` and whose libxml parse
  result is `b.doc`.
* Sleeps and requests are recorded in an event trace (`Ev`) so that
  pacing properties are statable.
-/

namespace Arhida

/-- Embedding of `struct Record` (Record.h): header fields plus Dublin
Core metadata fields.  Field names and order follow the C++ struct; a
default-constructed `Record` has empty strings and empty vectors. -/
structure Record where
  header_identifier : String := ""
  header_datestamp : String := ""
  header_setSpecs : List String := []
  metadata_creator : List String := []
  metadata_date : List String := []
  metadata_description : String := ""
  metadata_identifier : List String := []
  metadata_subject : List String := []
  metadata_title : List String := []
  metadata_type : String := ""
deriving Repr, DecidableEq

/-- A libxml2 element node: its tag name, the text content that
`xmlNodeGetContent` would return for it, and its child node list (which,
as in libxml, may include text nodes — modelled as nodes whose name is
`"text"`). -/
inductive Xml where
  | node (name : String) (content : String) (children : List Xml)
deriving Repr

/-- Tag name of a node. -/
def Xml.name : Xml → String
  | .node n _ _ => n

/-- Text content of a node, as `xmlNodeGetContent` returns it. -/
def Xml.content : Xml → String
  | .node _ c _ => c

/-- Child list of a node. -/
def Xml.children : Xml → List Xml
  | .node _ _ cs => cs

/-- One iteration of the header loop of `OaiClient::parseXmlResponse`
(OaiClient.cpp lines 148-163): an `identifier` or `datestamp` child
assigns the field (a later sibling overwrites an earlier one, as
assignment does in the C++), a `setSpec` child is appended. -/
def applyHeaderChild (r : Record) (c : Xml) : Record :=
  if c.name = "identifier" then { r with header_identifier := c.content }
  else if c.name = "datestamp" then { r with header_datestamp := c.content }
  else if c.name = "setSpec" then
    { r with header_setSpecs := r.header_setSpecs ++ [c.content] }
  else r

/-- One iteration of the Dublin Core loop of
`OaiClient::parseXmlResponse` (OaiClient.cpp lines 169-189): multi-valued
tags append, single-valued tags assign. -/
def applyDcChild (r : Record) (c : Xml) : Record :=
  if c.name = "creator" then
    { r with metadata_creator := r.metadata_creator ++ [c.content] }
  else if c.name = "date" then
    { r with metadata_date := r.metadata_date ++ [c.content] }
  else if c.name = "description" then
    { r with metadata_description := c.content }
  else if c.name = "identifier" then
    { r with metadata_identifier := r.metadata_identifier ++ [c.content] }
  else if c.name = "subject" then
    { r with metadata_subject := r.metadata_subject ++ [c.content] }
  else if c.name = "title" then
    { r with metadata_title := r.metadata_title ++ [c.content] }
  else if c.name = "type" then
    { r with metadata_type := c.content }
  else r

/-- One iteration of the per-record child loop of
`OaiClient::parseXmlResponse` (OaiClient.cpp lines 146-192): a `header`
child runs the header loop over its children; a `metadata` child runs the
Dublin Core loop over the grandchildren (children of each of its
children); any other child is ignored. -/
def applyRecordChild (r : Record) (c : Xml) : Record :=
  if c.name = "header" then c.children.foldl applyHeaderChild r
  else if c.name = "metadata" then
    c.children.foldl (fun r dc => dc.children.foldl applyDcChild r) r
  else r

/-- Parsing of one `<record>` element (OaiClient.cpp lines 142-196),
starting from a default-constructed `Record`. -/
def parseRecordNode (n : Xml) : Record :=
  n.children.foldl applyRecordChild {}

/-- One iteration of the top-level loop of
`OaiClient::parseXmlResponse` (OaiClient.cpp lines 141-198): a child of
the root named `record` is parsed and, when its extracted
`header_identifier` is non-empty (line 194), pushed onto the
accumulator; every other node is skipped. -/
def parseTopChild (acc : List Record) (n : Xml) : List Record :=
  if n.name = "record" then
    if (parseRecordNode n).header_identifier ≠ "" then
      acc ++ [parseRecordNode n]
    else acc
  else acc

/-- Embedding of `OaiClient::parseXmlResponse` (OaiClient.cpp lines
125-204).  `none` models `xmlReadMemory` failing (or a document with no
root): the C++ logs and returns the empty vector.  Otherwise the loop
`parseTopChild` runs over the root's children.  No other node (in
particular no `error` or `resumptionToken` element) is inspected. -/
def parseXmlResponse (doc : Option Xml) : List Record :=
  match doc with
  | none => []
  | some root => root.children.foldl parseTopChild []

/-- An HTTP response body as seen by `OaiClient::listRecords`: the raw
text returned by `fetchUrl` (only its emptiness is observed, line 116)
and the result of `xmlReadMemory` on it (`none` = unparseable). -/
structure Body where
  text : String
  doc : Option Xml

/-- An event in the execution trace of `listRecords`: a call to
`OaiClient::rateLimitWait` (an unconditional
`sleep_for(seconds(rate_limit_delay_))`, OaiClient.cpp lines 71-73), or
the start of physical request attempt number `i` (a `fetchUrl` call). -/
inductive Ev where
  | wait
  | fetch (i : Nat)
deriving Repr, DecidableEq

/-- The retry loop of `OaiClient::listRecords` (OaiClient.cpp lines
100-114), embedded with the loop counter turned into the remaining
iteration budget `r = max_retries_ - retries` and the index `idx` of the
next attempt.  Each iteration tries `fetchUrl` (event `Ev.fetch idx`);
on success the loop breaks with the body; on an exception the counter is
incremented and, if attempts remain (`retries < max_retries_`, i.e.
`r - 1 > 0`), `rateLimitWait()` runs (event `Ev.wait`) and the loop
repeats.  Returns the event list and the body obtained (`none` when the
budget is exhausted, leaving `xml_response` empty). -/
def attemptLoop (fetch : Nat → Option Body) (idx : Nat) :
    Nat → List Ev × Option Body
  | 0 => ([], none)
  | r + 1 =>
    match fetch idx with
    | some b => ([Ev.fetch idx], some b)
    | none =>
      match r with
      | 0 => ([Ev.fetch idx], none)
      | r' + 1 =>
        let rest := attemptLoop fetch (idx + 1) (r' + 1)
        (Ev.fetch idx :: Ev.wait :: rest.1, rest.2)

/-- Event trace of one `OaiClient::listRecords` call: the unconditional
`rateLimitWait()` before the first request (line 97) followed by the
retry-loop events. -/
def listRecordsEvents (fetch : Nat → Option Body) (maxRetries : Nat) :
    List Ev :=
  Ev.wait :: (attemptLoop fetch 0 maxRetries).1

/-- Embedding of `OaiClient::listRecords` (OaiClient.cpp lines 75-123).
After the retry loop, an empty `xml_response` — whether because every
attempt failed or because a successful response had an empty body —
makes the call log a warning and return the empty vector (lines
116-120); otherwise the body is handed to `parseXmlResponse`.  The C++
function always returns a `std::vector<Record>`: every `fetchUrl`
exception is caught inside the loop and no error value of any kind is
produced. -/
def listRecords (fetch : Nat → Option Body) (maxRetries : Nat) :
    List Record :=
  match (attemptLoop fetch 0 maxRetries).2 with
  | none => []
  | some b => if b.text = "" then [] else parseXmlResponse b.doc

/-- Number of physical request attempts in a trace. -/
def countFetches (l : List Ev) : Nat :=
  l.countP fun e => match e with | .fetch _ => true | .wait => false

/-- Number of rate-limit waits in a trace. -/
def countWaits (l : List Ev) : Nat :=
  l.countP fun e => match e with | .fetch _ => false | .wait => true

/-- Predicate `paced prevWait l`: every `Ev.fetch` in `l` is immediately
preceded by an `Ev.wait` (with `prevWait` telling whether the element
before `l` was a wait).  Each wait licenses at most one fetch. -/
def paced : Bool → List Ev → Bool
  | _, [] => true
  | prevWait, Ev.fetch _ :: rest => prevWait && paced false rest
  | _, Ev.wait :: rest => paced true rest

/-- Start times of the fetch events of a trace, given the configured
rate-limit delay, a duration `durs i` for attempt `i`, and the clock
value at the head of the trace: a wait advances the clock by `delay`, a
fetch starts at the current clock and advances it by its duration. -/
def fetchStarts (delay : Nat) (durs : Nat → Nat) :
    List Ev → Nat → List Nat
  | [], _ => []
  | Ev.wait :: rest, t => fetchStarts delay durs rest (t + delay)
  | Ev.fetch i :: rest, t => t :: fetchStarts delay durs rest (t + durs i)

/-- A row of the `{schema}.{table}` metadata table created by
`Database::createTable` (Database.cpp lines 83-103): keyed by the unique
`header_identifier`, with the remaining columns (datestamp, the JSONB
dumps of the multi-valued fields, description, type) collected as the
parameter strings `$1..$10` of the upsert statement, plus the
`created_at` / `updated_at` timestamps. -/
structure StoredRow where
  header_identifier : String
  params : List String
  created_at : Nat
  updated_at : Nat
deriving Repr, DecidableEq

/-- Embedding of `Harvester::insertRecords` (Harvester.cpp, part_002
lines 184-285).  The C++ builds the upsert SQL text (lines 189-209) and,
per record inside a try/catch, converts the vector fields to JSON and
fills the `param_values` array (lines 216-268), then increments
`processed` (line 273).  The statement is never executed: lines 270-271
read "Note: Full implementation would use PQexecParams for proper
parameterized queries / This is a simplified version showing the
concept", and no `PQexec`/`PQexecParams` call occurs anywhere in the
function.  Consequently the store is returned unchanged and the only
other observable is the final `processed` count (logged at line 284 as
"Inserted {} records"), which counts every record since the conversions
in the try block cannot throw. -/
def insertRecords (store : List StoredRow) (records : List Record) :
    List StoredRow × Nat :=
  (store, records.foldl (fun processed _ => processed + 1) 0)

/-- Rows of a store keyed by a given identifier. -/
def rowsFor (store : List StoredRow) (ident : String) : List StoredRow :=
  store.filter fun row => row.header_identifier = ident

/-- Embedding of `Harvester::getMissingDates` (Harvester.cpp, part_002
lines 287-299).  The body is an acknowledged placeholder — "This is a
simplified implementation / In full implementation, would query
PostgreSQL to find missing dates" and "For now, return a single date as
placeholder" — that ignores the database, the set_spec and the end date,
and always returns the singleton list holding `start_date`. -/
def getMissingDates (start_date end_date set_spec : String) :
    List String :=
  [start_date]

/-- A JSON value as held by `nlohmann::json`. -/
inductive Json where
  | null
  | bool (b : Bool)
  | num (n : Int)
  | str (s : String)
  | arr (xs : List Json)
  | obj (kvs : List (String × Json))
deriving Repr

/-- Embedding of `JsonHelper::vectorToJson` (JsonHelper.cpp lines
12-18): builds a `json::array()` and pushes each vector element onto it
in order.  The C++ then returns `j.dump()`; serialization to text and
reparsing (`json::parse`) are modelled at the JSON-tree level, `dump`
followed by `parse` being the identity on well-formed values per the
nlohmann library contract, so this embedding returns the tree itself. -/
def vectorToJson (v : List String) : Json :=
  Json.arr (v.map Json.str)

/-- The element loop of `JsonHelper::jsonToVector` (JsonHelper.cpp
lines 26-31): a string element is appended to the result, any other
element is skipped. -/
def jsonCollectString (acc : List String) (x : Json) : List String :=
  match x with
  | Json.str s => acc ++ [s]
  | _ => acc

/-- Embedding of `JsonHelper::jsonToVector` (JsonHelper.cpp lines
20-37).  The argument is the outcome of `json::parse` on the input text:
`none` models a `json::parse_error`, which the C++ catches, logging and
returning the empty vector.  On a parsed value, only an array yields
elements, via the loop `jsonCollectString`; any non-array value
contributes nothing. -/
def jsonToVector (parsed : Option Json) : List String :=
  match parsed with
  | none => []
  | some (Json.arr xs) => xs.foldl jsonCollectString []
  | some _ => []

/-! Concrete test inputs used to settle the claims on explicit data. -/

/-- A well-formed `<record>` element for the paper `1111.0001`. -/
def recNodeA : Xml :=
  .node "record" ""
    [ .node "header" ""
        [ .node "identifier" "oai:arXiv.org:1111.0001" []
        , .node "datestamp" "2021-01-01" []
        , .node "setSpec" "physics" [] ]
    , .node "metadata" ""
        [ .node "dc" ""
            [ .node "title" "A" []
            , .node "creator" "Alice" [] ] ] ]

/-- The `Record` value that `parseRecordNode` extracts from `recNodeA`. -/
def recA : Record :=
  { header_identifier := "oai:arXiv.org:1111.0001"
  , header_datestamp := "2021-01-01"
  , header_setSpecs := ["physics"]
  , metadata_creator := ["Alice"]
  , metadata_title := ["A"] }

/-- A well-formed `<record>` element for the paper `2222.0002`. -/
def recNodeB : Xml :=
  .node "record" ""
    [ .node "header" ""
        [ .node "identifier" "oai:arXiv.org:2222.0002" []
        , .node "datestamp" "2021-01-02" []
        , .node "setSpec" "physics" [] ]
    , .node "metadata" ""
        [ .node "dc" ""
            [ .node "title" "B" []
            , .node "creator" "Bob" [] ] ] ]

/-- The `Record` value that `parseRecordNode` extracts from `recNodeB`. -/
def recB : Record :=
  { header_identifier := "oai:arXiv.org:2222.0002"
  , header_datestamp := "2021-01-02"
  , header_setSpecs := ["physics"]
  , metadata_creator := ["Bob"]
  , metadata_title := ["B"] }

/-- First page of a two-page response sequence: one record plus a
`resumptionToken` element signalling that more pages exist. -/
def docPage1 : Xml :=
  .node "OAI-PMH" "" [recNodeA, .node "resumptionToken" "tok123" []]

/-- Second page: the remaining record, no token. -/
def docPage2 : Xml :=
  .node "OAI-PMH" "" [recNodeB]

/-- Body of the first page. -/
def bodyPage1 : Body := { text := "page1", doc := some docPage1 }

/-- Body of the second page. -/
def bodyPage2 : Body := { text := "page2", doc := some docPage2 }

/-- An HTTP oracle serving the two-page sequence: attempt 0 gets page 1
(which carries the continuation token), attempt 1 would get page 2. -/
def twoPageFetch : Nat → Option Body :=
  fun i => if i = 0 then some bodyPage1 else
    if i = 1 then some bodyPage2 else none

/-- An HTTP oracle on which every attempt fails (connection error,
timeout, or HTTP 429/503 — `fetchUrl` throws in all those cases
alike). -/
def alwaysFailFetch : Nat → Option Body :=
  fun _ => none

/-- An OAI-PMH protocol-error response: the envelope carries an `error`
element with a genuine (non-`noRecordsMatch`) error code and no
records. -/
def errorDoc : Xml :=
  .node "OAI-PMH" "" [.node "error" "badArgument" []]

/-- An HTTP oracle whose first attempt succeeds with the protocol-error
response. -/
def errorFetch : Nat → Option Body :=
  fun i => if i = 0 then some { text := "err", doc := some errorDoc } else none

/-- An HTTP oracle whose first attempt succeeds with a non-empty but
unparseable (truncated) payload: `xmlReadMemory` returns `NULL`. -/
def malformedFetch : Nat → Option Body :=
  fun i => if i = 0 then some { text := "<OAI-PM", doc := none } else none

/-- A re-harvest of paper `1111.0001` with the same identifier but a
changed datestamp and title (the second write of an upsert pair). -/
def recA2 : Record :=
  { recA with header_datestamp := "2021-02-02", metadata_title := ["A v2"] }

/-- A batch of five records with distinct identifiers, record #3 being
the one the spec supposes to fail at write time. -/
def batch5 : List Record :=
  [ { header_identifier := "oai:arXiv.org:3333.0001" }
  , { header_identifier := "oai:arXiv.org:3333.0002" }
  , { header_identifier := "oai:arXiv.org:3333.0003" }
  , { header_identifier := "oai:arXiv.org:3333.0004" }
  , { header_identifier := "oai:arXiv.org:3333.0005" } ]

/-! Helper lemmas about the retry loop, the parser folds and the JSON
fold.  These are shared infrastructure; the claim theorems follow
them. -/

/-- Unfolding of the retry loop when the current attempt succeeds: the
loop breaks at once with the body. -/
theorem attemptLoop_succ_some (fetch : Nat → Option Body) (idx r : Nat)
    (b : Body) (hf : fetch idx = some b) :
    attemptLoop fetch idx (r + 1) = ([Ev.fetch idx], some b) := by
  cases r <;> simp [attemptLoop, hf]

/-- Unfolding of the retry loop when the last allowed attempt fails:
the loop exits without a wait and without a body. -/
theorem attemptLoop_one_none (fetch : Nat → Option Body) (idx : Nat)
    (hf : fetch idx = none) :
    attemptLoop fetch idx 1 = ([Ev.fetch idx], none) := by
  simp [attemptLoop, hf]

/-- Unfolding of the retry loop when a non-final attempt fails: the
failed attempt is followed by a wait and the loop continues. -/
theorem attemptLoop_succ2_none (fetch : Nat → Option Body) (idx r : Nat)
    (hf : fetch idx = none) :
    attemptLoop fetch idx (r + 2) =
      (Ev.fetch idx :: Ev.wait :: (attemptLoop fetch (idx + 1) (r + 1)).1,
       (attemptLoop fetch (idx + 1) (r + 1)).2) := by
  simp [attemptLoop, hf]

/-- When every attempt fails, the retry loop returns no body and makes
exactly as many attempts as its iteration budget allows. -/
theorem attemptLoop_allFail (fetch : Nat → Option Body)
    (h : ∀ i, fetch i = none) :
    ∀ r idx, (attemptLoop fetch idx r).2 = none ∧
      countFetches (attemptLoop fetch idx r).1 = r := by
  intro r
  induction r with
  | zero => intro idx; exact ⟨rfl, rfl⟩
  | succ r ih =>
    intro idx
    cases r with
    | zero =>
      rw [attemptLoop_one_none fetch idx (h idx)]
      exact ⟨rfl, rfl⟩
    | succ r' =>
      have hrec := ih (idx + 1)
      rw [attemptLoop_succ2_none fetch idx r' (h idx)]
      refine ⟨hrec.1, ?_⟩
      have := hrec.2
      simp [countFetches, List.countP_cons] at this ⊢
      omega

/-- Every fetch in the retry-loop trace is immediately preceded by a
wait, provided a wait precedes the trace. -/
theorem paced_attemptLoop (fetch : Nat → Option Body) :
    ∀ r idx, paced true (attemptLoop fetch idx r).1 = true := by
  intro r
  induction r with
  | zero => intro idx; rfl
  | succ r ih =>
    intro idx
    cases hf : fetch idx with
    | some b => rw [attemptLoop_succ_some fetch idx r b hf]; rfl
    | none =>
      cases r with
      | zero => rw [attemptLoop_one_none fetch idx hf]; rfl
      | succ r' =>
        rw [attemptLoop_succ2_none fetch idx r' hf]
        simpa [paced] using ih (idx + 1)

/-- In a nonempty retry loop, the attempts outnumber the in-loop waits
by exactly one (the remaining wait is the unconditional one before the
loop). -/
theorem counts_attemptLoop (fetch : Nat → Option Body) :
    ∀ r idx, 1 ≤ r →
      countFetches (attemptLoop fetch idx r).1 =
        countWaits (attemptLoop fetch idx r).1 + 1 := by
  intro r
  induction r with
  | zero => intro idx h; omega
  | succ r ih =>
    intro idx _
    cases hf : fetch idx with
    | some b => rw [attemptLoop_succ_some fetch idx r b hf]; rfl
    | none =>
      cases r with
      | zero => rw [attemptLoop_one_none fetch idx hf]; rfl
      | succ r' =>
        have hrec := ih (idx + 1) (by omega)
        rw [attemptLoop_succ2_none fetch idx r' hf]
        simp [countFetches, countWaits, List.countP_cons] at hrec ⊢
        omega

/-- The fetch start times in a retry-loop trace preceded by a wait form
a chain with gaps of at least the configured delay, and every start is
at least one delay after the trace begins. -/
theorem chain_fetchStarts (fetch : Nat → Option Body) (delay : Nat)
    (durs : Nat → Nat) :
    ∀ r idx t,
      List.Chain' (fun a b => a + delay ≤ b)
        (fetchStarts delay durs (Ev.wait :: (attemptLoop fetch idx r).1) t) ∧
      ∀ x ∈ fetchStarts delay durs
          (Ev.wait :: (attemptLoop fetch idx r).1) t,
        t + delay ≤ x := by
  intro r
  induction r with
  | zero =>
    intro idx t
    exact ⟨by simp [attemptLoop, fetchStarts], by simp [attemptLoop, fetchStarts]⟩
  | succ r ih =>
    intro idx t
    cases hf : fetch idx with
    | some b =>
      rw [attemptLoop_succ_some fetch idx r b hf]
      refine ⟨?_, ?_⟩ <;> simp [fetchStarts]
    | none =>
      cases r with
      | zero =>
        rw [attemptLoop_one_none fetch idx hf]
        refine ⟨?_, ?_⟩ <;> simp [fetchStarts]
      | succ r' =>
        obtain ⟨hchain, hmem⟩ := ih (idx + 1) (t + delay + durs idx)
        rw [attemptLoop_succ2_none fetch idx r' hf]
        have hshape :
            fetchStarts delay durs
              (Ev.wait :: Ev.fetch idx :: Ev.wait ::
                (attemptLoop fetch (idx + 1) (r' + 1)).1) t =
            (t + delay) ::
              fetchStarts delay durs
                (Ev.wait :: (attemptLoop fetch (idx + 1) (r' + 1)).1)
                (t + delay + durs idx) := by
          simp [fetchStarts]
        rw [hshape]
        constructor
        · refine List.chain'_cons'.mpr ⟨?_, hchain⟩
          intro b hb
          have : t + delay + durs idx + delay ≤ b :=
            hmem b (List.mem_of_mem_head? hb)
          omega
        · intro x hx
          rcases List.mem_cons.mp hx with hx | hx
          · omega
          · have := hmem x hx
            omega

/-- The top-level parser fold never adds a record with an empty
identifier to the accumulator. -/
theorem mem_foldl_parseTopChild (l : List Xml) (acc : List Record)
    (hacc : ∀ r ∈ acc, r.header_identifier ≠ "") :
    ∀ r ∈ l.foldl parseTopChild acc, r.header_identifier ≠ "" := by
  induction l generalizing acc with
  | nil => exact hacc
  | cons n l ih =>
    rw [List.foldl_cons]
    apply ih
    intro r hr
    unfold parseTopChild at hr
    split at hr
    · split at hr
      · rcases List.mem_append.mp hr with h | h
        · exact hacc r h
        · rw [List.mem_singleton.mp h]
          assumption
      · exact hacc r hr
    · exact hacc r hr

/-- The top-level parser fold leaves the accumulator unchanged when no
child is named `record`. -/
theorem foldl_parseTopChild_no_record (l : List Xml) (acc : List Record)
    (h : ∀ c ∈ l, c.name ≠ "record") :
    l.foldl parseTopChild acc = acc := by
  induction l generalizing acc with
  | nil => rfl
  | cons c l ih =>
    rw [List.foldl_cons]
    have hc : c.name ≠ "record" := h c (by simp)
    rw [show parseTopChild acc c = acc from by simp [parseTopChild, hc]]
    exact ih acc fun x hx => h x (by simp [hx])

/-- Folding the string collector over a list of JSON strings appends the
underlying strings in order. -/
theorem foldl_jsonCollectString (v : List String) :
    ∀ acc, (v.map Json.str).foldl jsonCollectString acc = acc ++ v := by
  induction v with
  | nil => intro acc; simp
  | cons s v ih =>
    intro acc
    simp [jsonCollectString, ih]

/-! Claim theorems. -/

/-- C1, counterexample: with `maxRetries = 3` and every physical attempt
failing retryably, `OaiClient::listRecords` makes exactly 3 attempts and
then RETURNS the normal empty record sequence.  The C++ function catches
every `fetchUrl` exception inside the retry loop and has no error result
of any kind (there is no `HarvestError` type in the repository), so the
claimed failure with `HarvestError{kind: Exhausted}` — "rather than
returning a normal (e.g. empty) record sequence" — is exactly what does
not happen. -/
theorem listRecords_exhaustion_returns_empty_counterexample :
    listRecords alwaysFailFetch 3 = [] ∧
    countFetches (listRecordsEvents alwaysFailFetch 3) = 3 :=
  ⟨rfl, rfl⟩

/-- C1, amended: for every call in which every physical request attempt
fails, `listRecords` makes exactly `maxRetries` attempts and then
returns the empty record sequence (logging a warning), raising no
error. -/
theorem listRecords_retry_exhaustion (fetch : Nat → Option Body)
    (maxRetries : Nat) (h : ∀ i, fetch i = none) :
    countFetches (listRecordsEvents fetch maxRetries) = maxRetries ∧
    listRecords fetch maxRetries = [] := by
  have hloop := attemptLoop_allFail fetch h maxRetries 0
  constructor
  · have := hloop.2
    simp [listRecordsEvents, countFetches, List.countP_cons] at this ⊢
    exact this
  · simp [listRecords, hloop.1]

/-- Witness for the C1 amended theorem at the always-failing oracle with
`maxRetries = 3`. -/
theorem listRecords_retry_exhaustion_witness :
    countFetches (listRecordsEvents alwaysFailFetch 3) = 3 ∧
    listRecords alwaysFailFetch 3 = [] :=
  listRecords_retry_exhaustion alwaysFailFetch 3 fun _ => rfl

/-- C2, counterexample: on a two-page response sequence — page 1 carries
record A and a `resumptionToken`, page 2 would carry record B —
`listRecords` makes exactly one physical request and returns only the
first page, not the combined sequence `[recA, recB]`: the code never
reads a resumption token and never issues a continuation request. -/
theorem listRecords_ignores_resumption_token_counterexample :
    listRecords twoPageFetch 3 = [recA] ∧
    countFetches (listRecordsEvents twoPageFetch 3) = 1 ∧
    listRecords twoPageFetch 3 ≠ [recA, recB] :=
  ⟨rfl, rfl, by decide⟩

/-- C2, amended: whenever the first attempt succeeds, `listRecords`
makes exactly one physical request and returns exactly that single
response parsed (the empty sequence when the body is empty); no
continuation request is ever issued, whatever tokens the response
carries. -/
theorem listRecords_single_request (fetch : Nat → Option Body)
    (maxRetries : Nat) (body : Body) (h0 : fetch 0 = some body)
    (h1 : 1 ≤ maxRetries) :
    countFetches (listRecordsEvents fetch maxRetries) = 1 ∧
    listRecords fetch maxRetries =
      (if body.text = "" then [] else parseXmlResponse body.doc) := by
  cases maxRetries with
  | zero => omega
  | succ m =>
    rw [listRecordsEvents, listRecords,
      attemptLoop_succ_some fetch 0 m body h0]
    exact ⟨rfl, rfl⟩

/-- Witness for the C2 amended theorem at the two-page oracle. -/
theorem listRecords_single_request_witness :
    countFetches (listRecordsEvents twoPageFetch 3) = 1 ∧
    listRecords twoPageFetch 3 =
      (if bodyPage1.text = "" then [] else parseXmlResponse bodyPage1.doc) :=
  listRecords_single_request twoPageFetch 3 bodyPage1 rfl (by omega)

/-- C4, counterexample: on a response whose envelope carries an `error`
element with the genuine protocol code `badArgument`, the parser returns
the empty record list with no error indication of any kind (its result
type is just `std::vector<Record>`), and `listRecords` returns that
empty sequence as a normal success — it does not fail, although the
reported code is a genuine (non-`noRecordsMatch`) error. -/
theorem protocol_error_returns_normal_empty_counterexample :
    parseXmlResponse (some errorDoc) = [] ∧
    listRecords errorFetch 3 = [] :=
  ⟨rfl, rfl⟩

/-- C4, amended: the parser never inspects `error` elements and has no
`isError`/`errorCode` output; any response whose root has no child named
`record` — protocol-error envelopes in particular, whether the code is
the empty-result signal `noRecordsMatch` or a genuine error — parses to
the empty record sequence, which `listRecords` returns as a normal
successful result; no `ProtocolError` failure exists in the code. -/
theorem parse_ignores_error_element (root : Xml)
    (hroot : ∀ c ∈ root.children, c.name ≠ "record")
    (fetch : Nat → Option Body) (maxRetries : Nat) (body : Body)
    (h0 : fetch 0 = some body) (hdoc : body.doc = some root) :
    parseXmlResponse (some root) = [] ∧
    listRecords fetch maxRetries = [] := by
  have hp : parseXmlResponse (some root) = [] := by
    simp [parseXmlResponse]
    exact foldl_parseTopChild_no_record root.children [] hroot
  refine ⟨hp, ?_⟩
  cases maxRetries with
  | zero => rfl
  | succ m =>
    rw [listRecords, attemptLoop_succ_some fetch 0 m body h0]
    simp [hdoc, hp]

/-- Witness for the C4 amended theorem at the `badArgument` response. -/
theorem parse_ignores_error_element_witness :
    parseXmlResponse (some errorDoc) = [] ∧
    listRecords errorFetch 3 = [] :=
  parse_ignores_error_element errorDoc (by decide) errorFetch 3
    { text := "err", doc := some errorDoc } rfl rfl

/-- C5, counterexample: on a non-empty but unparseable payload
(`xmlReadMemory` returns NULL), the parser returns the empty record list
— there is no `isError` flag and no `"parse-failure"` code anywhere in
the code — and the outcome is not retried: the HTTP fetch succeeded, so
the retry loop has already exited and `listRecords` makes exactly one
attempt, returning an empty result indistinguishable from success. -/
theorem parse_failure_not_retried_counterexample :
    listRecords malformedFetch 3 = [] ∧
    countFetches (listRecordsEvents malformedFetch 3) = 1 :=
  ⟨rfl, rfl⟩

/-- C5, amended: whenever the first attempt yields a payload that libxml
cannot parse, `parseXmlResponse` returns the empty record sequence with
no error indication, and the client does not retry: exactly one physical
attempt is made and `listRecords` returns the empty sequence. -/
theorem parse_failure_returns_empty (fetch : Nat → Option Body)
    (maxRetries : Nat) (body : Body) (h0 : fetch 0 = some body)
    (hdoc : body.doc = none) (h1 : 1 ≤ maxRetries) :
    listRecords fetch maxRetries = [] ∧
    countFetches (listRecordsEvents fetch maxRetries) = 1 := by
  cases maxRetries with
  | zero => omega
  | succ m =>
    rw [listRecords, listRecordsEvents,
      attemptLoop_succ_some fetch 0 m body h0]
    refine ⟨?_, rfl⟩
    simp [hdoc, parseXmlResponse]

/-- Witness for the C5 amended theorem at the malformed-payload
oracle. -/
theorem parse_failure_returns_empty_witness :
    listRecords malformedFetch 3 = [] ∧
    countFetches (listRecordsEvents malformedFetch 3) = 1 :=
  parse_failure_returns_empty malformedFetch 3
    { text := "<OAI-PM", doc := none } rfl rfl (by omega)

/-- C3, code evaluation at the failing input: upserting record A and
then its re-harvest A2 (same identifier, changed datestamp and title)
leaves the store with NO row keyed by that identifier — not one row with
the second write values — because `Harvester::insertRecords` builds the
`ON CONFLICT ... DO UPDATE` statement and the parameter values but never
executes them (its own note reads "Full implementation would use
PQexecParams"), while still logging "Inserted 1 records". -/
theorem upsert_twice_stores_no_row :
    rowsFor (insertRecords (insertRecords [] [recA]).1 [recA2]).1
        "oai:arXiv.org:1111.0001" = [] ∧
    (insertRecords (insertRecords [] [recA]).1 [recA2]).1 = [] ∧
    (insertRecords (insertRecords [] [recA]).1 [recA2]).2 = 1 :=
  ⟨rfl, rfl, rfl⟩

/-- C6, code evaluation at the failing input: on a batch of five records
(the third being the one supposed to fail at write time),
`Harvester::insertRecords` returns no `{inserted, updated, skipped}`
counts — it is `void` in the C++, and its only tally, `processed`,
counts all five records since nothing in the try block can fail — and
the store gains no rows at all, rather than the four surviving rows the
claim requires. -/
theorem batch5_no_counts_no_rows :
    insertRecords [] batch5 = ([], 5) :=
  rfl

/-- C7: before every physical request of a `listRecords` call, including
every retry attempt, the rate-limit wait runs exactly once: the trace is
paced (every fetch event is immediately preceded by a wait event), the
number of waits equals the number of attempts, and for every configured
delay and any attempt durations the interval between consecutive
request-start times is at least the delay
(`OaiClient::rateLimitWait` sleeps unconditionally for the full
`rate_limit_delay_`). -/
theorem rate_limit_before_every_request (fetch : Nat → Option Body)
    (maxRetries : Nat) (h : 1 ≤ maxRetries) :
    paced false (listRecordsEvents fetch maxRetries) = true ∧
    countWaits (listRecordsEvents fetch maxRetries) =
      countFetches (listRecordsEvents fetch maxRetries) ∧
    ∀ delay durs,
      List.Chain' (fun a b => a + delay ≤ b)
        (fetchStarts delay durs (listRecordsEvents fetch maxRetries) 0) := by
  refine ⟨?_, ?_, ?_⟩
  · simpa [listRecordsEvents, paced] using
      paced_attemptLoop fetch maxRetries 0
  · have := counts_attemptLoop fetch maxRetries 0 h
    simp [listRecordsEvents, countFetches, countWaits,
      List.countP_cons] at this ⊢
    omega
  · intro delay durs
    exact (chain_fetchStarts fetch delay durs maxRetries 0 0).1

/-- Witness for the C7 theorem at the always-failing oracle with
`maxRetries = 3`, delay 3 and constant attempt duration 2. -/
theorem rate_limit_before_every_request_witness :
    paced false (listRecordsEvents alwaysFailFetch 3) = true ∧
    countWaits (listRecordsEvents alwaysFailFetch 3) =
      countFetches (listRecordsEvents alwaysFailFetch 3) ∧
    List.Chain' (fun a b => a + 3 ≤ b)
      (fetchStarts 3 (fun _ => 2) (listRecordsEvents alwaysFailFetch 3) 0) :=
  ⟨(rate_limit_before_every_request alwaysFailFetch 3 (by omega)).1,
   (rate_limit_before_every_request alwaysFailFetch 3 (by omega)).2.1,
   (rate_limit_before_every_request alwaysFailFetch 3 (by omega)).2.2
     3 fun _ => 2⟩

/-- C8: a record whose extracted identifier is empty is excluded from
the parser output (OaiClient.cpp line 194 pushes only records with a
non-empty `header_identifier`), so no record with an empty identifier
ever appears in the output of `parseXmlResponse` or of `listRecords` —
and hence none reaches `Harvester::insertRecords`, which consumes the
`listRecords` result unchanged. -/
theorem no_empty_identifier_in_output :
    (∀ doc r, r ∈ parseXmlResponse doc → r.header_identifier ≠ "") ∧
    (∀ fetch maxRetries r, r ∈ listRecords fetch maxRetries →
      r.header_identifier ≠ "") := by
  have hparse : ∀ doc r, r ∈ parseXmlResponse doc →
      r.header_identifier ≠ "" := by
    intro doc r hr
    match doc with
    | none => simp [parseXmlResponse] at hr
    | some root =>
      exact mem_foldl_parseTopChild root.children []
        (by intro r h; simp at h) r hr
  refine ⟨hparse, ?_⟩
  intro fetch maxRetries r hr
  rw [listRecords] at hr
  cases h2 : (attemptLoop fetch 0 maxRetries).2 with
  | none => rw [h2] at hr; simp at hr
  | some b =>
    rw [h2] at hr
    by_cases ht : b.text = ""
    · simp [ht] at hr
    · simp only [ht, if_false, if_neg ht] at hr
      exact hparse b.doc r hr

/-- Witness for the C8 theorem: the record parsed from page 1 has a
non-empty identifier. -/
theorem no_empty_identifier_in_output_witness :
    recA ∈ parseXmlResponse (some docPage1) ∧
    recA.header_identifier ≠ "" :=
  ⟨by decide, no_empty_identifier_in_output.1 (some docPage1) recA (by decide)⟩

/-- C9, code evaluation at the failing input:
`Harvester::getMissingDates` is an acknowledged placeholder that always
returns the singleton `[start_date]`, ignoring the store, the topic and
the end date.  On the range 2021-01-01 .. 2021-01-03 for topic
`physics` it returns `["2021-01-01"]` — not the dates with zero stored
records — and on an inverted range (`fromDate > untilDate`) it returns
the `fromDate` singleton instead of the empty sequence. -/
theorem getMissingDates_placeholder_eval :
    getMissingDates "2021-01-01" "2021-01-03" "physics" = ["2021-01-01"] ∧
    getMissingDates "2021-01-05" "2021-01-01" "physics" = ["2021-01-05"] :=
  ⟨rfl, rfl⟩

/-- C10: the JSON list encoding of multi-valued fields round-trips —
`jsonToVector` applied to the parse of `vectorToJson v` returns exactly
`v`, preserving order and duplicates — and `jsonToVector` is total,
returning the empty vector when the parse fails instead of
propagating the exception. -/
theorem jsonToVector_vectorToJson_roundtrip :
    (∀ v : List String, jsonToVector (some (vectorToJson v)) = v) ∧
    jsonToVector none = [] := by
  refine ⟨?_, rfl⟩
  intro v
  simp [jsonToVector, vectorToJson, foldl_jsonCollectString]

end Arhida
